import Mathlib

/-!
Verification of the yolo-dataset-backend ingestion pipeline.

This file shallowly embeds the parts of the code that the properties below
are about:

* the YOLO label-line decoder (`app/utils/yolo_validator.py`,
  `YOLOValidator.parse_annotations`);
* the payload-shape constraints declared by the record models
  (`app/models/annotation.py`: `BBox`, `PoseKeypoints`);
* the concurrent batch uploader with retry
  (`app/services/minio_service.py`: `MinioService._batch_upload_attempt`,
  `MinioService.upload_files`);
* phase 3 of split ingestion, which reconciles upload outcomes with
  database inserts (`app/services/upload_service.py`,
  `UploadService.process_split`; `scripts/init_dataset.py`,
  `YOLODatasetImporter.process_split`);
* the dataset statistics update (`app/services/dataset_service.py`,
  `DatasetService.update_dataset_stats`; `scripts/init_dataset.py`,
  `YOLODatasetImporter.update_dataset_stats`);
* the chunked-upload session endpoints (`app/api/upload.py`:
  `upload_chunk`, `complete_upload`).

Machine floats of the Python code are modelled as rationals (`ℚ`); byte
strings as `List Nat`; the per-item upload outcome of the thread pool is an
injected function from attempt number and item to success/failure, which
captures every pattern of partial network failure.  The thread pool of
`_batch_upload_attempt` completes items in nondeterministic order; the model
keeps submission order, which is sound for the stated properties because they
only speak about membership and lengths of the returned lists.
-/

namespace YoloBackend

/-! ### Label-line tokens

`parse_annotations` splits each stripped line on whitespace and feeds the
tokens to `int(...)` / `float(...)`.  A token is modelled by the outcome of
those two Python conversions: `asInt` is `some k` when `int(token)` returns
`k`, `asFloat` is `some q` when `float(token)` returns `q` (exact decimal
literals, modelled as rationals); `none` models the `ValueError` raised by
the conversion. -/

structure Token where
  asInt : Option Int
  asFloat : Option ℚ
deriving Repr, DecidableEq

/-- A token carrying an integer literal: both conversions succeed. -/
def intTok (k : Int) : Token := ⟨some k, some (k : ℚ)⟩

/-- A token carrying a non-integer numeric literal: `int()` raises,
`float()` succeeds. -/
def floatTok (q : ℚ) : Token := ⟨none, some q⟩

/-- A token neither conversion accepts (for example `"abc"`). -/
def badTok : Token := ⟨none, none⟩

/-- `int(parts[0])` (line 185 of `app/utils/yolo_validator.py`): `none`
models the `ValueError` the file-level `except` catches. -/
def tokenInt (t : Token) : Option Int :=
  t.asInt

/-- `float(parts[i])`: `none` models the `ValueError` the file-level
`except` catches. -/
def tokenFloat (t : Token) : Option ℚ :=
  t.asFloat

/-- `[float(x) for x in ...]`: the conversions run left to right and the
first failure raises. -/
def tokenFloats : List Token → Option (List ℚ)
  | [] => some []
  | t :: ts =>
    match tokenFloat t with
    | none => none
    | some q =>
      match tokenFloats ts with
      | none => none
      | some qs => some (q :: qs)

/-! ### Decoded records -/

/-- The `bbox` sub-dict of a decoded `detect` record
(`app/utils/yolo_validator.py` lines 194-199). -/
structure BBox where
  x_center : ℚ
  y_center : ℚ
  width : ℚ
  height : ℚ
deriving Repr, DecidableEq

/-- The type-specific payload of a decoded record; the constructor is the
`annotation_type` tag written into the dict. -/
inductive AnnPayload where
  | detect (bbox : BBox)
  | obb (points : List ℚ)
  | segment (points : List ℚ)
  | pose (keypoints : List ℚ)
  | classify
deriving Repr, DecidableEq

/-- One decoded record as produced by `parse_annotations` (the fields the
properties are about; `confidence`, `is_crowd`, `metadata` and the
timestamps are constants at decode time). -/
structure Ann where
  class_id : Int
  class_name : String
  payload : AnnPayload
  area : Option ℚ
deriving Repr, DecidableEq

/-- Constraint declared by the `BBox` model
(`app/models/annotation.py` lines 9-21): every coordinate carries
`Field(..., ge=0, le=1)`. -/
def bboxWithinBounds (b : BBox) : Prop :=
  (0 ≤ b.x_center ∧ b.x_center ≤ 1) ∧ (0 ≤ b.y_center ∧ b.y_center ≤ 1) ∧
    (0 ≤ b.width ∧ b.width ≤ 1) ∧ (0 ≤ b.height ∧ b.height ≤ 1)

/-- Constraint enforced by `PoseKeypoints.validate_keypoints`
(`app/models/annotation.py` lines 39-44): the keypoint list must consist of
complete (x, y, visibility) triples. -/
def poseKeypointsValid (ks : List ℚ) : Bool :=
  ks.length % 3 == 0

/-! ### The class-name lookup

Line 186 of `app/utils/yolo_validator.py`:

`class_name = class_names[class_id] if class_id < len(class_names) else
f"class_{class_id}"`

with Python list-indexing semantics: a negative index `i` with
`-len ≤ i` addresses `class_names[len + i]`, and `i < -len` raises
`IndexError` (`none` here, caught by the file-level `except`). -/

def classNameOf (names : List String) (cid : Int) : Option String :=
  if cid < (names.length : Int) then
    let j : Int := if cid < 0 then (names.length : Int) + cid else cid
    if j < 0 then none
    else names.get? j.toNat
  else
    some ("class_" ++ toString cid)

/-- The effect of one iteration of the `for line in lines` loop on the
accumulator: skip the line, append one record, or raise out of the loop to
the file-level handler. -/
inductive LineOut where
  | err
  | skip
  | ann (a : Ann)
deriving Repr, DecidableEq

/-! ### The line decoder

One iteration of the `for line in lines` loop of `parse_annotations`
(`app/utils/yolo_validator.py` lines 176-270), applied to the token list of
one non-blank line. -/

def parseLine (dtype : String) (names : List String) (parts : List Token) :
    LineOut :=
  match parts with
  | [] => .skip
  | t0 :: rest =>
    match tokenInt t0 with
    | none => .err
    | some cid =>
      match classNameOf names cid with
      | none => .err
      | some cname =>
        if dtype = "detect" then
          match rest with
          | t1 :: t2 :: t3 :: t4 :: _ =>
            match tokenFloat t1, tokenFloat t2, tokenFloat t3,
                tokenFloat t4 with
            | some x, some y, some w, some h =>
              .ann ⟨cid, cname, .detect ⟨x, y, w, h⟩, some (w * h)⟩
            | _, _, _, _ => .err
          | _ => .skip
        else if dtype = "obb" then
          match rest with
          | t1 :: t2 :: t3 :: t4 :: t5 :: t6 :: t7 :: t8 :: _ =>
            match tokenFloats [t1, t2, t3, t4, t5, t6, t7, t8] with
            | some ps => .ann ⟨cid, cname, .obb ps, none⟩
            | none => .err
          | _ => .skip
        else if dtype = "segment" then
          match rest with
          | [] => .skip
          | _ =>
            match tokenFloats rest with
            | some ps => .ann ⟨cid, cname, .segment ps, none⟩
            | none => .err
        else if dtype = "pose" then
          match rest with
          | [] => .skip
          | _ =>
            match tokenFloats rest with
            | some ks => .ann ⟨cid, cname, .pose ks, none⟩
            | none => .err
        else if dtype = "classify" then
          .ann ⟨cid, cname, .classify, none⟩
        else
          .skip

/-- `parse_annotations` over the token lists of the file's non-blank lines.
The `try` block wraps the whole loop (lines 172-273), so the first line
that raises ends the loop; the handler logs and the function returns the
records accumulated so far. -/
def parseAnnotations (dtype : String) (names : List String) :
    List (List Token) → List Ann
  | [] => []
  | l :: ls =>
    match parseLine dtype names l with
    | .err => []
    | .skip => parseAnnotations dtype names ls
    | .ann a => a :: parseAnnotations dtype names ls

end YoloBackend

namespace YoloBackend.Minio

/-! ### Batch uploader (`app/services/minio_service.py`)

An item of the normalized `file_list`.  Upload outcomes are injected as
`ok : Nat → Item → Bool`: `ok r i = true` means the object store confirmed
the write of item `i` on attempt round `r` (round 0 is the initial pass,
round `r ≥ 1` the r-th retry).  `_upload_single_file` reports success
exactly when `fput_object` returned without raising, so `ok` is
confirmation by the store, never best effort. -/

structure Item where
  file_path : String
  object_name : String
  content_type : String
deriving Repr, DecidableEq, Inhabited

/-- `_batch_upload_attempt` (lines 195-241): dispatches every item of
`file_list`, appends the `object_name` of each confirmed item to
`success_list` and the failed items to `failed_list`.  Returns
`(success_list, failed_list)` of this attempt. -/
def batchUploadAttempt (ok1 : Item → Bool) (items : List Item) :
    List String × List Item :=
  ((items.filter ok1).map Item.object_name, items.filter (fun i => !ok1 i))

/-- One entry of `retry_info["retry_attempts"]` together with the batch it
re-dispatched (lines 337-351). -/
structure RetryRound where
  dispatched : List Item
  recovered : List String
  stillFailed : List Item
deriving Repr, DecidableEq, Inhabited

/-- The `while failed_list and retry_count < max_retries` loop of
`upload_files` (lines 325-362).  `r` is the attempt number of the next
round, `remaining` the retries still allowed; each round re-dispatches
exactly the previous `failed_list` through `_batch_upload_attempt`, extends
`success_list` and replaces `failed_list`. -/
def uploadRetryLoop (ok : Nat → Item → Bool) (r : Nat) (remaining : Nat)
    (success : List String) (failed : List Item) :
    List String × List Item × List RetryRound :=
  match remaining with
  | 0 => (success, failed, [])
  | remaining' + 1 =>
    if failed.isEmpty then (success, failed, [])
    else
      let att := batchUploadAttempt (ok r) failed
      let rec' := uploadRetryLoop ok (r + 1) remaining' (success ++ att.1) att.2
      (rec'.1, rec'.2.1, ⟨failed, att.1, att.2⟩ :: rec'.2.2)

/-- The summary dict returned by `upload_files` (lines 365-373), restricted
to the fields the properties use. -/
structure UploadSummary where
  total : Nat
  successful : Nat
  failed : Nat
  success_list : List String
  failed_list : List Item
  retry_rounds : List RetryRound
deriving Repr, DecidableEq

/-- `MinioService.upload_files` (lines 243-380): empty input returns the
zero summary; otherwise one initial `_batch_upload_attempt` over the whole
list, then the retry loop over the failed subset, at most `maxRetries`
times. -/
def uploadFiles (ok : Nat → Item → Bool) (maxRetries : Nat)
    (items : List Item) : UploadSummary :=
  if items.isEmpty then ⟨0, 0, 0, [], [], []⟩
  else
    let first := batchUploadAttempt (ok 0) items
    let rest := uploadRetryLoop ok 1 maxRetries first.1 first.2
    ⟨items.length, rest.1.length, rest.2.1.length, rest.1, rest.2.1, rest.2.2⟩

end YoloBackend.Minio

namespace YoloBackend.Ingest

open YoloBackend

/-! ### Split ingestion, phases 2-3
(`UploadService.process_split`, `app/services/upload_service.py` lines
199-376; identically `YOLODatasetImporter.process_split`,
`scripts/init_dataset.py` lines 198-343). -/

/-- One staged candidate record of `image_doc_list`: the pre-computed image
document with its embedded annotation list, keyed by the destination object
key `file_path` that the matching `upload_list` tuple carries. -/
structure ImageDoc where
  local_path : String
  file_path : String
  content_type : String
  anns : List Ann
deriving Repr, DecidableEq

/-- The `upload_list` staged in phase 1: one
`(local_path, minio_file_path, content_type)` tuple per staged document,
whose `object_name` is the document's `file_path`. -/
def uploadItems (docs : List ImageDoc) : List Minio.Item :=
  docs.map (fun d => ⟨d.local_path, d.file_path, d.content_type⟩)

/-- Phase 3 selection loop (`upload_service.py` lines 343-352): walk
`image_doc_list`; a document is appended to `images_to_insert`, and its
annotations counted, exactly when its `file_path` is in `successful_paths`
(the set built from `upload_result["success_list"]`).  Returns
`(images_to_insert, annotation count)`. -/
def selectInserted (successPaths : List String) (docs : List ImageDoc) :
    List ImageDoc × Nat :=
  docs.foldl
    (fun acc d =>
      if d.file_path ∈ successPaths then (acc.1 ++ [d], acc.2 + d.anns.length)
      else acc)
    ([], 0)

/-- Modelled from the spec: both `process_split` implementations call
`image_service.bulk_save_images(images_to_insert)`, but no such function
exists under `src/` (`ImageService` in `app/services/image_service.py` has
no bulk method and the `app.services` package does not re-export one).  Per
the spec's ingestion contract it inserts the given candidate records into
the document store and returns the inserted count; the store is modelled as
the list of inserted image records. -/
def bulkSaveImages (store : List ImageDoc) (docs : List ImageDoc) :
    List ImageDoc × Nat :=
  (store ++ docs, docs.length)

/-- The outcome of phases 2-3 of one split: the uploader summary, the
records selected for insertion and their annotation count. -/
structure SplitOutcome where
  summary : Minio.UploadSummary
  inserted : List ImageDoc
  annCount : Nat

/-- Phases 2-3 of `process_split`: batch-upload the staged list
(`max_retries=3` at both call sites), then keep only the documents whose
destination key the uploader confirmed. -/
def processSplitPhase23 (ok : Nat → Minio.Item → Bool) (docs : List ImageDoc) :
    SplitOutcome :=
  let summary := Minio.uploadFiles ok 3 (uploadItems docs)
  let sel := selectInserted summary.success_list docs
  ⟨summary, sel.1, sel.2⟩

end YoloBackend.Ingest

namespace YoloBackend.Stats

/-! ### Dataset statistics updates -/

/-- The dataset document fields touched by the stats updates (see the
dataset dict created in `scripts/init_dataset.py` lines 170-190).
Timestamps are modelled as abstract ticks. -/
structure DatasetDoc where
  num_images : Nat
  num_annotations : Nat
  file_size : Nat
  splits : List (String × Nat)
  status : String
  updated_at : Nat
deriving Repr, DecidableEq

/-- `DatasetService.update_dataset_stats`
(`app/services/dataset_service.py` lines 111-136): one `update_one` whose
single `$set` writes `num_images`, `num_annotations`, `splits` and
`updated_at` — and nothing else; in particular it does not touch `status`.
(Note: its signature is `(dataset_id, num_images, num_annotations, splits)`,
while `UploadService._process_images_and_annotations` lines 153-164 invokes
it with ten positional arguments, which raises `TypeError` at runtime; the
model gives the method its own declared arguments.) -/
def serviceUpdateStats (d : DatasetDoc) (numImages numAnns : Nat)
    (splits : List (String × Nat)) (now : Nat) : DatasetDoc :=
  { d with
    num_images := numImages
    num_annotations := numAnns
    splits := splits
    updated_at := now }

/-- `YOLODatasetImporter.update_dataset_stats`
(`scripts/init_dataset.py` lines 345-365): one `update_one` whose single
`$set` writes the summed totals, the total byte size, the per-split
breakdown, `status = "active"` and `updated_at`. -/
def importerUpdateStats (d : DatasetDoc)
    (trainImages trainAnns trainSize valImages valAnns valSize : Nat)
    (now : Nat) : DatasetDoc :=
  { d with
    num_images := trainImages + valImages
    num_annotations := trainAnns + valAnns
    file_size := trainSize + valSize
    splits := [("train", trainImages), ("val", valImages)]
    status := "active"
    updated_at := now }

end YoloBackend.Stats

namespace YoloBackend.Chunks

/-! ### Chunked-upload sessions (`app/api/upload.py`)

A session as held in the `upload_sessions` dict: the declared chunk count,
the `received_chunks` set, and the per-index `.part<i>` files on disk
(`parts i = some bytes` when the file exists with those bytes). -/

structure UploadSession where
  total_chunks : Nat
  received_chunks : Finset Nat
  parts : Nat → Option (List Nat)

/-- A session as `start_upload` creates it (lines 56-64): empty
received-index set, no chunk files. -/
def freshSession (n : Nat) : UploadSession :=
  ⟨n, ∅, fun _ => none⟩

/-- One chunk arrival: the request's `chunk_index` (a Python int, possibly
negative), the chunk bytes, and the injected fate of the disk write:
`ioError = true` models the `open`/`write` raising, in which case `corrupt`
is what the `.part` file holds afterwards (`none`: the open itself failed
and the file is as before; `some c`: the file was created or truncated and
holds `c`). -/
structure ChunkEvent where
  idx : Int
  data : List Nat
  ioError : Bool
  corrupt : Option (List Nat)

/-- The response of `upload_chunk`: the success dict, the 400 for an
out-of-range index, or the 500 when saving raised. -/
inductive ChunkAck where
  | success (chunk : Int)
  | invalidIndex
  | saveFailed
deriving Repr, DecidableEq

/-- `upload_chunk` (lines 99-121) on a known session: reject an index
outside `[0, total_chunks)` with 400; otherwise write the `.part` file and
only then add the index to `received_chunks`; a write error answers 500
having left the received-index set untouched. -/
def receiveChunk (s : UploadSession) (e : ChunkEvent) :
    ChunkAck × UploadSession :=
  if e.idx < 0 ∨ (s.total_chunks : Int) ≤ e.idx then (.invalidIndex, s)
  else if e.ioError then
    (.saveFailed,
      { s with parts := fun j =>
          if j = e.idx.toNat then
            match e.corrupt with
            | none => s.parts j
            | some c => some c
          else s.parts j })
  else
    (.success e.idx,
      { s with
        received_chunks := insert e.idx.toNat s.received_chunks
        parts := fun j => if j = e.idx.toNat then some e.data else s.parts j })

/-- A session after a sequence of `upload_chunk` calls. -/
def applyEvents (s : UploadSession) (evs : List ChunkEvent) : UploadSession :=
  evs.foldl (fun s e => (receiveChunk s e).2) s

/-- The `for i in range(total_chunks)` read of the `.part` files during
reassembly (lines 158-161): `none` when some part file cannot be read (the
exception path). -/
def readParts (parts : Nat → Option (List Nat)) :
    List Nat → Option (List (List Nat))
  | [] => some []
  | i :: rest =>
    match parts i with
    | none => none
    | some c =>
      match readParts parts rest with
      | none => none
      | some cs => some (c :: cs)

/-- The assembled file: the concatenation, in index order 0,1,…,N-1, of the
part files' bytes. -/
def assembleParts (s : UploadSession) : Option (List Nat) :=
  (readParts s.parts (List.range s.total_chunks)).map List.flatten

/-- The response of `complete_upload`: 400 `Not all chunks received`, the
assembled file, or the 500 cleanup path when reading a part raised. -/
inductive CompleteResult where
  | incomplete
  | assembled (file : List Nat)
  | ioFailure
deriving Repr, DecidableEq

/-- `complete_upload` (lines 140-177) on a known session: fail with
`Incomplete` — leaving the session exactly as it was — unless
`len(received_chunks) == total_chunks`; on success concatenate the part
files in index order, deleting each (`safe_remove`).  (On the `ioFailure`
path the endpoint additionally removes the whole session from the
registry.) -/
def completeUpload (s : UploadSession) : CompleteResult × UploadSession :=
  if s.received_chunks.card ≠ s.total_chunks then (.incomplete, s)
  else
    match assembleParts s with
    | some file => (.assembled file, { s with parts := fun _ => none })
    | none => (.ioFailure, s)

/-- The bytes the last successful write of index `j` carried: the later
arrival wins, re-sends overwrite (`none` when no event wrote `j`). -/
def lastWrite : List ChunkEvent → Nat → Option (List Nat)
  | [], _ => none
  | e :: evs, j =>
    match lastWrite evs j with
    | some d => some d
    | none => if j = e.idx.toNat then some e.data else none

end YoloBackend.Chunks

/-! ## Theorems -/

namespace YoloBackend

/-- C6: the decoder performs no range check on `detect` coordinates.  The
label line `0 1.5 0.5 0.3 0.4` (x_center = 1.5 ∉ [0,1]) is not skipped: it
decodes to a record whose bbox violates the `[0,1]` bounds the `BBox` model
itself declares with `Field(..., ge=0, le=1)`. -/
theorem c6_detect_out_of_range_kept :
    parseAnnotations "detect" ["cat"]
        [[intTok 0, floatTok (3/2), floatTok (1/2), floatTok (3/10),
          floatTok (2/5)]] =
      [⟨0, "cat", .detect ⟨3/2, 1/2, 3/10, 2/5⟩, some (3/10 * (2/5))⟩] ∧
    ¬ bboxWithinBounds ⟨3/2, 1/2, 3/10, 2/5⟩ := by
  constructor
  · rfl
  · intro h
    exact absurd h.1.2 (by norm_num)

/-- C7: the decoder accepts any `pose` line with more than one token and
stores all remaining floats as keypoints without checking divisibility by
three.  The line `0 0.1 0.2` yields a stored pose record with a partial
triple (2 coordinates), which `PoseKeypoints.validate_keypoints` itself
would reject. -/
theorem c7_pose_partial_triple_kept :
    parseAnnotations "pose" ["person"]
        [[intTok 0, floatTok (1/10), floatTok (1/5)]] =
      [⟨0, "person", .pose [1/10, 1/5], none⟩] ∧
    poseKeypointsValid [1/10, 1/5] = false := by
  exact ⟨rfl, rfl⟩

/-- C8, counterexample: the `try` of `parse_annotations` wraps the whole
line loop, so a line whose class-id token is not an integer aborts the rest
of the file: of three lines (good, bad, good) only the first good line's
record is returned, although the third line decodes fine on its own. -/
theorem c8_counterexample :
    parseAnnotations "detect" ["cat", "dog"]
        [[intTok 0, floatTok (1/2), floatTok (1/2), floatTok (1/10),
          floatTok (1/10)],
         [badTok, floatTok (1/2)],
         [intTok 1, floatTok (1/2), floatTok (1/2), floatTok (1/5),
          floatTok (1/5)]] =
      [⟨0, "cat", .detect ⟨1/2, 1/2, 1/10, 1/10⟩, some (1/10 * (1/10))⟩] ∧
    parseLine "detect" ["cat", "dog"]
        [intTok 1, floatTok (1/2), floatTok (1/2), floatTok (1/5),
         floatTok (1/5)] =
      .ann ⟨1, "dog", .detect ⟨1/2, 1/2, 1/5, 1/5⟩, some (1/5 * (1/5))⟩ := by
  exact ⟨rfl, rfl⟩

/-- C8 (amended): a parse exception on one line ends decoding of that file:
the records decoded from the lines before it are kept and returned — the
file-level decode returns a list rather than raising — but that line and
every line after it are dropped. -/
theorem c8_error_line_truncates_file (dtype : String) (names : List String)
    (l : List Token) (ls1 ls2 : List (List Token))
    (h : parseLine dtype names l = .err) :
    parseAnnotations dtype names (ls1 ++ l :: ls2) =
      parseAnnotations dtype names ls1 := by
  induction ls1 with
  | nil => simp [parseAnnotations, h]
  | cons a as ih =>
    cases hpa : parseLine dtype names a <;>
      simp [parseAnnotations, hpa, ih]

/-- C8 witness: a concrete three-line file whose middle line raises. -/
theorem c8_error_line_truncates_file_witness :
    parseLine "detect" ["cat"] [badTok, floatTok (1/2)] = .err ∧
    parseAnnotations "detect" ["cat"]
        ([[intTok 0, floatTok 0, floatTok 0, floatTok 0, floatTok 0]] ++
          [badTok, floatTok (1/2)] ::
            [[intTok 0, floatTok 0, floatTok 0, floatTok 0, floatTok 0]]) =
      parseAnnotations "detect" ["cat"]
        [[intTok 0, floatTok 0, floatTok 0, floatTok 0, floatTok 0]] :=
  ⟨rfl,
    c8_error_line_truncates_file "detect" ["cat"] [badTok, floatTok (1/2)]
      [[intTok 0, floatTok 0, floatTok 0, floatTok 0, floatTok 0]]
      [[intTok 0, floatTok 0, floatTok 0, floatTok 0, floatTok 0]]
      rfl⟩

/-- C9, counterexample: for the `detect` line `-1 0.5 0.5 0.3 0.4` with
`class_names = ["cat"]`, the id `-1` does not address a declared name from
the front of the list, yet the produced record's class name is `"cat"`
(Python negative indexing), not the synthesized `"class_-1"`. -/
theorem c9_counterexample :
    parseAnnotations "detect" ["cat"]
        [[intTok (-1), floatTok (1/2), floatTok (1/2), floatTok (3/10),
          floatTok (2/5)]] =
      [⟨-1, "cat", .detect ⟨1/2, 1/2, 3/10, 2/5⟩, some (3/10 * (2/5))⟩] ∧
    "cat" ≠ "class_-1" := by
  exact ⟨rfl, by decide⟩

/-- C9 (amended): the class name attached to a produced record follows
Python indexing of `class_names`: `class_names[class_id]` for
`0 ≤ class_id < len`; the synthesized `class_<id>` exactly when
`class_id ≥ len`; a negative id with `-len ≤ id` resolves from the back of
the list (`class_names[len + id]`); an id `< -len` raises `IndexError`,
aborting decoding of the rest of the file. -/
theorem c9_class_name_python_indexing (names : List String) (cid : Int) :
    ((names.length : Int) ≤ cid →
      classNameOf names cid = some ("class_" ++ toString cid)) ∧
    (0 ≤ cid → cid < (names.length : Int) →
      classNameOf names cid = names.get? cid.toNat) ∧
    (cid < 0 → -(names.length : Int) ≤ cid →
      classNameOf names cid = names.get? ((names.length : Int) + cid).toNat) ∧
    (cid < -(names.length : Int) → classNameOf names cid = none) ∧
    (∀ x y w h : ℚ,
      parseAnnotations "detect" names
          [[intTok cid, floatTok x, floatTok y, floatTok w, floatTok h]] =
        match classNameOf names cid with
        | some nm => [⟨cid, nm, .detect ⟨x, y, w, h⟩, some (w * h)⟩]
        | none => []) := by
  refine ⟨?_, ?_, ?_, ?_, ?_⟩
  · intro h
    simp only [classNameOf]
    split_ifs <;> first | rfl | omega
  · intro h0 h1
    simp only [classNameOf]
    split_ifs <;> first | rfl | omega
  · intro h0 h1
    simp only [classNameOf]
    split_ifs <;> first | rfl | omega
  · intro h
    simp only [classNameOf]
    split_ifs <;> first | rfl | omega
  · intro x y w h
    cases hc : classNameOf names cid <;>
      simp [parseAnnotations, parseLine, tokenInt, tokenFloat, intTok,
        floatTok, hc]

end YoloBackend

namespace YoloBackend.Minio

/-- A filter and its negation partition a list's length. -/
theorem filter_partition_length (p : Item → Bool) (l : List Item) :
    (l.filter p).length + (l.filter (fun i => !p i)).length = l.length := by
  induction l with
  | nil => rfl
  | cons a l ih => cases h : p a <;> simp [List.filter_cons, h] <;> omega

/-- One pool attempt reports each dispatched item exactly once, as a
success or as a failure. -/
theorem batchUploadAttempt_length (ok1 : Item → Bool) (items : List Item) :
    (batchUploadAttempt ok1 items).1.length +
      (batchUploadAttempt ok1 items).2.length = items.length := by
  simpa [batchUploadAttempt] using filter_partition_length ok1 items

/-- Every key an attempt reports successful belongs to a dispatched item
the store confirmed on that attempt. -/
theorem batchUploadAttempt_success_src (ok1 : Item → Bool)
    (items : List Item) (k : String)
    (hk : k ∈ (batchUploadAttempt ok1 items).1) :
    ∃ i, i ∈ items ∧ i.object_name = k ∧ ok1 i = true := by
  simp only [batchUploadAttempt, List.mem_map, List.mem_filter] at hk
  obtain ⟨i, ⟨hi, hoki⟩, rfl⟩ := hk
  exact ⟨i, hi, rfl, hoki⟩

/-- The failed list of an attempt is a subset of what was dispatched. -/
theorem batchUploadAttempt_failed_sub (ok1 : Item → Bool)
    (items : List Item) (i : Item)
    (hi : i ∈ (batchUploadAttempt ok1 items).2) : i ∈ items := by
  simp only [batchUploadAttempt, List.mem_filter] at hi
  exact hi.1

/-- The retry loop preserves the count invariant: on exit, accumulated
successes plus still-failed items number exactly the entering successes
plus the entering failed batch. -/
theorem uploadRetryLoop_sum (ok : Nat → Item → Bool) (remaining : Nat) :
    ∀ (r : Nat) (success : List String) (failed : List Item),
      (uploadRetryLoop ok r remaining success failed).1.length +
          (uploadRetryLoop ok r remaining success failed).2.1.length =
        success.length + failed.length := by
  induction remaining with
  | zero => intro r success failed; rfl
  | succ n ih =>
    intro r success failed
    by_cases h : failed.isEmpty = true
    · simp [uploadRetryLoop, h]
    · have hb := batchUploadAttempt_length (ok r) failed
      have hrec := ih (r + 1)
        (success ++ (batchUploadAttempt (ok r) failed).1)
        (batchUploadAttempt (ok r) failed).2
      simp only [uploadRetryLoop, h] at hrec ⊢
      simp only [if_false, Bool.false_eq_true, if_neg] at hrec ⊢
      simp only [List.length_append] at hrec
      omega

/-- The retry loop runs at most `remaining` rounds, the first round
re-dispatches exactly the entering failed batch, and each later round
re-dispatches exactly the still-failed output of the round before it. -/
theorem uploadRetryLoop_rounds (ok : Nat → Item → Bool) (remaining : Nat) :
    ∀ (r : Nat) (success : List String) (failed : List Item),
      (uploadRetryLoop ok r remaining success failed).2.2.length ≤ remaining ∧
      ((uploadRetryLoop ok r remaining success failed).2.2 ≠ [] →
        ((uploadRetryLoop ok r remaining success
            failed).2.2.getD 0 default).dispatched = failed) ∧
      ∀ i : Nat,
        i + 1 < (uploadRetryLoop ok r remaining success failed).2.2.length →
        ((uploadRetryLoop ok r remaining success
            failed).2.2.getD (i + 1) default).dispatched =
          ((uploadRetryLoop ok r remaining success
              failed).2.2.getD i default).stillFailed := by
  induction remaining with
  | zero =>
    intro r success failed
    refine ⟨by simp [uploadRetryLoop], by simp [uploadRetryLoop], ?_⟩
    intro i hi
    simp [uploadRetryLoop] at hi
  | succ n ih =>
    intro r success failed
    by_cases h : failed.isEmpty = true
    · refine ⟨by simp [uploadRetryLoop, h], by simp [uploadRetryLoop, h], ?_⟩
      intro i hi
      simp [uploadRetryLoop, h] at hi
    · obtain ⟨ih1, ih2, ih3⟩ := ih (r + 1)
        (success ++ (batchUploadAttempt (ok r) failed).1)
        (batchUploadAttempt (ok r) failed).2
      refine ⟨?_, ?_, ?_⟩
      · simp only [uploadRetryLoop, h, Bool.false_eq_true, if_false,
          List.length_cons]
        omega
      · intro _
        simp only [uploadRetryLoop, h, Bool.false_eq_true, if_false,
          List.getD_cons_zero]
      · intro i hi
        simp only [uploadRetryLoop, h, Bool.false_eq_true, if_false,
          List.length_cons] at hi ⊢
        cases i with
        | zero =>
          rw [List.getD_cons_succ, List.getD_cons_zero]
          refine ih2 ?_
          rw [← List.length_pos_iff_ne_nil]
          omega
        | succ k =>
          rw [List.getD_cons_succ, List.getD_cons_succ]
          exact ih3 k (by omega)

/-- Every key in the loop's final success list traces back to an item of
`pool` that the store confirmed on some attempt, provided the entering
successes do and the entering failed batch is drawn from `pool`. -/
theorem uploadRetryLoop_success_src (ok : Nat → Item → Bool)
    (pool : List Item) (remaining : Nat) :
    ∀ (r : Nat) (success : List String) (failed : List Item),
      (∀ k ∈ success, ∃ i, i ∈ pool ∧ i.object_name = k ∧ ∃ q, ok q i = true) →
      (∀ i ∈ failed, i ∈ pool) →
      ∀ k ∈ (uploadRetryLoop ok r remaining success failed).1,
        ∃ i, i ∈ pool ∧ i.object_name = k ∧ ∃ q, ok q i = true := by
  induction remaining with
  | zero => intro r success failed hs _ k hk; exact hs k hk
  | succ n ih =>
    intro r success failed hs hf k hk
    by_cases h : failed.isEmpty = true
    · simp only [uploadRetryLoop, h, if_true] at hk
      exact hs k hk
    · simp only [uploadRetryLoop, h, Bool.false_eq_true, if_false] at hk
      refine ih (r + 1) (success ++ (batchUploadAttempt (ok r) failed).1)
        (batchUploadAttempt (ok r) failed).2 ?_ ?_ k hk
      · intro k' hk'
        rcases List.mem_append.mp hk' with hk' | hk'
        · exact hs k' hk'
        · obtain ⟨i, hi, hname, hoki⟩ :=
            batchUploadAttempt_success_src (ok r) failed k' hk'
          exact ⟨i, hf i hi, hname, r, hoki⟩
      · intro i hi
        exact hf i (batchUploadAttempt_failed_sub (ok r) failed i hi)

/-- C2: for every file list and every pattern of per-item success/failure
across attempts, `upload_files` returns a summary with
`len(success_list) + len(failed_list) = len(file_list)`; it executes at
most `max_retries` retry rounds; the first retry round re-dispatches
exactly the failed output of the initial attempt, and each later round
exactly the still-failed output of the round before it. -/
theorem c2_upload_files_eventually_consistent (ok : Nat → Item → Bool)
    (maxRetries : Nat) (items : List Item) :
    (uploadFiles ok maxRetries items).success_list.length +
        (uploadFiles ok maxRetries items).failed_list.length =
      items.length ∧
    (uploadFiles ok maxRetries items).retry_rounds.length ≤ maxRetries ∧
    ((uploadFiles ok maxRetries items).retry_rounds ≠ [] →
      ((uploadFiles ok maxRetries items).retry_rounds.getD 0
          default).dispatched = (batchUploadAttempt (ok 0) items).2) ∧
    ∀ i : Nat, i + 1 < (uploadFiles ok maxRetries items).retry_rounds.length →
      ((uploadFiles ok maxRetries items).retry_rounds.getD (i + 1)
          default).dispatched =
        ((uploadFiles ok maxRetries items).retry_rounds.getD i
            default).stillFailed := by
  by_cases h : items.isEmpty = true
  · have : items = [] := by simpa [List.isEmpty_iff] using h
    subst this
    refine ⟨rfl, by simp [uploadFiles], by simp [uploadFiles], ?_⟩
    intro i hi
    simp [uploadFiles] at hi
  · have hsum := uploadRetryLoop_sum ok maxRetries 1
      (batchUploadAttempt (ok 0) items).1 (batchUploadAttempt (ok 0) items).2
    have hb := batchUploadAttempt_length (ok 0) items
    obtain ⟨hr1, hr2, hr3⟩ := uploadRetryLoop_rounds ok maxRetries 1
      (batchUploadAttempt (ok 0) items).1 (batchUploadAttempt (ok 0) items).2
    simp only [uploadFiles, h, Bool.false_eq_true, if_false]
    exact ⟨by omega, hr1, hr2, hr3⟩

end YoloBackend.Minio

namespace YoloBackend.Minio

/-- Every key `upload_files` reports in `success_list` belongs to a
dispatched item that the store confirmed on some attempt. -/
theorem uploadFiles_success_src (ok : Nat → Item → Bool) (maxRetries : Nat)
    (items : List Item) :
    ∀ k ∈ (uploadFiles ok maxRetries items).success_list,
      ∃ i, i ∈ items ∧ i.object_name = k ∧ ∃ q, ok q i = true := by
  by_cases h : items.isEmpty = true
  · intro k hk
    simp [uploadFiles, h] at hk
  · intro k hk
    simp only [uploadFiles, h, Bool.false_eq_true, if_false] at hk
    refine uploadRetryLoop_success_src ok items maxRetries 1
      (batchUploadAttempt (ok 0) items).1 (batchUploadAttempt (ok 0) items).2
      ?_ ?_ k hk
    · intro k' hk'
      obtain ⟨i, hi, hname, hoki⟩ :=
        batchUploadAttempt_success_src (ok 0) items k' hk'
      exact ⟨i, hi, hname, 0, hoki⟩
    · intro i hi
      exact batchUploadAttempt_failed_sub (ok 0) items i hi

end YoloBackend.Minio

namespace YoloBackend.Ingest

/-- Any document the phase-3 fold selects was either already in the
accumulator or is a staged document whose destination key is in
`successful_paths`. -/
theorem selectInserted_fold_mem (ps : List String) (docs : List ImageDoc) :
    ∀ (acc : List ImageDoc × Nat) (d : ImageDoc),
      d ∈ (docs.foldl
        (fun acc d =>
          if d.file_path ∈ ps then (acc.1 ++ [d], acc.2 + d.anns.length)
          else acc) acc).1 →
      d ∈ acc.1 ∨ (d ∈ docs ∧ d.file_path ∈ ps) := by
  induction docs with
  | nil => intro acc d hd; exact Or.inl hd
  | cons a as ih =>
    intro acc d hd
    simp only [List.foldl_cons] at hd
    by_cases ha : a.file_path ∈ ps
    · rw [if_pos ha] at hd
      rcases ih _ d hd with hmem | hmem
      · rcases List.mem_append.mp hmem with hmem | hmem
        · exact Or.inl hmem
        · have : d = a := by simpa using hmem
          subst this
          exact Or.inr ⟨List.mem_cons_self d as, ha⟩
      · exact Or.inr ⟨List.mem_cons_of_mem a hmem.1, hmem.2⟩
    · rw [if_neg ha] at hd
      rcases ih _ d hd with hmem | hmem
      · exact Or.inl hmem
      · exact Or.inr ⟨List.mem_cons_of_mem a hmem.1, hmem.2⟩

/-- Any selected document is staged and its destination key was confirmed. -/
theorem selectInserted_mem (ps : List String) (docs : List ImageDoc)
    (d : ImageDoc) (hd : d ∈ (selectInserted ps docs).1) :
    d ∈ docs ∧ d.file_path ∈ ps := by
  rcases selectInserted_fold_mem ps docs ([], 0) d hd with hmem | hmem
  · simp at hmem
  · exact hmem

/-- C1: reconciliation invariant of split ingestion.  After phase 3 and the
(spec-modelled) bulk insert, every record in the document store either
pre-existed or has its storage key in the uploader's `success_list`; every
staged record whose key the uploader did not confirm is discarded, never
inserted; and every key in `success_list` is the destination key of a
staged item the object store confirmed on some attempt — so no inserted
Image/Annotation record references an object key absent from the object
store. -/
theorem c1_reconciliation_invariant (ok : Nat → Minio.Item → Bool)
    (store : List ImageDoc) (docs : List ImageDoc) :
    (∀ d ∈ (bulkSaveImages store (processSplitPhase23 ok docs).inserted).1,
        d ∈ store ∨
          d.file_path ∈ (processSplitPhase23 ok docs).summary.success_list) ∧
    (∀ d ∈ docs,
        d.file_path ∉ (processSplitPhase23 ok docs).summary.success_list →
        d ∉ (processSplitPhase23 ok docs).inserted) ∧
    (∀ k ∈ (processSplitPhase23 ok docs).summary.success_list,
        ∃ i, i ∈ uploadItems docs ∧ i.object_name = k ∧
          ∃ r, ok r i = true) := by
  refine ⟨?_, ?_, ?_⟩
  · intro d hd
    rcases List.mem_append.mp hd with hmem | hmem
    · exact Or.inl hmem
    · exact Or.inr (selectInserted_mem _ docs d hmem).2
  · intro d _ hnot hins
    exact hnot (selectInserted_mem _ docs d hins).2
  · intro k hk
    exact Minio.uploadFiles_success_src ok 3 (uploadItems docs) k hk

end YoloBackend.Ingest

namespace YoloBackend.Stats

/-- C5: evaluated at a concrete dataset in status `processing`, the stats
update invoked by the API ingestion path (`DatasetService.
update_dataset_stats`) writes counts, splits and `updated_at` but leaves
the status at `processing` — it never sets `active` as the claim requires
(and its call site passes ten positional arguments to the four-parameter
method, a `TypeError` at runtime). -/
theorem c5_service_stats_update_keeps_status :
    (serviceUpdateStats
        ⟨0, 0, 0, [("train", 0), ("val", 0), ("test", 0)], "processing", 0⟩
        2 3 [("train", 1), ("val", 1), ("test", 0)] 7).status =
      "processing" ∧
    "processing" ≠ "active" := by
  exact ⟨rfl, by decide⟩

end YoloBackend.Stats

namespace YoloBackend.Chunks

/-- `upload_chunk` never changes the declared chunk count. -/
theorem receiveChunk_total (s : UploadSession) (e : ChunkEvent) :
    ((receiveChunk s e).2).total_chunks = s.total_chunks := by
  unfold receiveChunk
  split_ifs <;> rfl

/-- Session invariant, preserved by any sequence of `upload_chunk` calls:
the chunk count is the declared one, every received index is in range, and
every received index has a readable part file. -/
theorem applyEvents_inv (n : Nat) (evs : List ChunkEvent) :
    ∀ s : UploadSession,
      s.total_chunks = n →
      s.received_chunks ⊆ Finset.range n →
      (∀ i ∈ s.received_chunks, (s.parts i).isSome) →
      (applyEvents s evs).total_chunks = n ∧
      (applyEvents s evs).received_chunks ⊆ Finset.range n ∧
      ∀ i ∈ (applyEvents s evs).received_chunks,
        ((applyEvents s evs).parts i).isSome := by
  induction evs with
  | nil => intro s h1 h2 h3; exact ⟨h1, h2, h3⟩
  | cons e evs ih =>
    intro s h1 h2 h3
    show (applyEvents (receiveChunk s e).2 evs).total_chunks = n ∧ _
    refine ih (receiveChunk s e).2 ?_ ?_ ?_
    · rw [receiveChunk_total]; exact h1
    · unfold receiveChunk
      split_ifs with hval hio
      · exact h2
      · exact h2
      · refine Finset.insert_subset_iff.mpr ⟨?_, h2⟩
        rw [Finset.mem_range]
        rw [h1] at hval
        omega
    · unfold receiveChunk
      split_ifs with hval hio
      · exact h3
      · intro i hi
        by_cases hidx : i = e.idx.toNat
        · subst hidx
          simp only [if_pos rfl]
          cases hc : e.corrupt with
          | none => simpa using h3 _ hi
          | some c => simp
        · simp only [if_neg hidx]
          exact h3 i hi
      · intro i hi
        rcases Finset.mem_insert.mp hi with hieq | hmem
        · simp [hieq]
        · by_cases hidx : i = e.idx.toNat
          · simp [hidx]
          · simp only [if_neg hidx]
            exact h3 i hmem

/-- `complete_upload` answers `Incomplete` exactly when the count check
`len(received_chunks) != total_chunks` fires. -/
theorem completeUpload_incomplete_iff (s : UploadSession) :
    (completeUpload s).1 = .incomplete ↔
      s.received_chunks.card ≠ s.total_chunks := by
  unfold completeUpload
  split_ifs with h
  · simp [h]
  · cases has : assembleParts s <;> simp [has, h]

/-- Reading the part files succeeds when each one is present. -/
theorem readParts_isSome (parts : Nat → Option (List Nat)) (l : List Nat)
    (h : ∀ i ∈ l, (parts i).isSome) : (readParts parts l).isSome := by
  induction l with
  | nil => rfl
  | cons a l ih =>
    obtain ⟨c, hc⟩ :=
      Option.isSome_iff_exists.mp (h a (List.mem_cons_self a l))
    obtain ⟨cs, hcs⟩ := Option.isSome_iff_exists.mp
      (ih fun i hi => h i (List.mem_cons_of_mem a hi))
    simp [readParts, hc, hcs]

/-- Reading the part files returns exactly the per-index contents. -/
theorem readParts_map (parts : Nat → Option (List Nat)) (g : Nat → List Nat)
    (l : List Nat) (h : ∀ i ∈ l, parts i = some (g i)) :
    readParts parts l = some (l.map g) := by
  induction l with
  | nil => rfl
  | cons a l ih =>
    simp [readParts, h a (List.mem_cons_self a l),
      ih fun i hi => h i (List.mem_cons_of_mem a hi)]

/-- C3: for every session reached from a fresh session by any sequence of
`upload_chunk` calls, `complete()` assembles a file exactly when the
received-index set equals `{0,…,total_chunks-1}`; otherwise it fails with
the `Incomplete` error and the session — received-index set and chunk files
— is returned unchanged, still accepting chunks. -/
theorem c3_complete_succeeds_iff_all_chunks (n : Nat) (evs : List ChunkEvent) :
    ((∃ file,
        (completeUpload (applyEvents (freshSession n) evs)).1 =
          .assembled file) ↔
      (applyEvents (freshSession n) evs).received_chunks = Finset.range n) ∧
    ((completeUpload (applyEvents (freshSession n) evs)).1 = .incomplete ↔
      (applyEvents (freshSession n) evs).received_chunks ≠ Finset.range n) ∧
    ((completeUpload (applyEvents (freshSession n) evs)).1 = .incomplete →
      (completeUpload (applyEvents (freshSession n) evs)).2 =
        applyEvents (freshSession n) evs) := by
  obtain ⟨h1, h2, h3⟩ := applyEvents_inv n evs (freshSession n) rfl
    (by simp [freshSession]) (by simp [freshSession])
  set s := applyEvents (freshSession n) evs with hsdef
  by_cases hcard : s.received_chunks.card = s.total_chunks
  · have hset : s.received_chunks = Finset.range n := by
      refine Finset.eq_of_subset_of_card_le h2 ?_
      rw [Finset.card_range]
      omega
    have hread : (readParts s.parts (List.range s.total_chunks)).isSome := by
      refine readParts_isSome s.parts (List.range s.total_chunks) ?_
      intro i hi
      refine h3 i ?_
      rw [hset, Finset.mem_range]
      rw [h1] at hi
      exact List.mem_range.mp hi
    obtain ⟨cs, hcs⟩ := Option.isSome_iff_exists.mp hread
    have hrun : completeUpload s =
        (.assembled cs.flatten, { s with parts := fun _ => none }) := by
      unfold completeUpload assembleParts
      rw [if_neg (by omega), hcs]
      rfl
    refine ⟨⟨fun _ => hset, fun _ => ⟨cs.flatten, by rw [hrun]⟩⟩, ?_, ?_⟩
    · rw [hrun]
      simp [hset]
    · rw [hrun]
      intro hcontra
      simp at hcontra
  · have hset : s.received_chunks ≠ Finset.range n := by
      intro hEq
      rw [hEq, Finset.card_range] at hcard
      omega
    have hrun : completeUpload s = (.incomplete, s) := by
      unfold completeUpload
      rw [if_pos hcard]
    refine ⟨?_, ?_, ?_⟩
    · rw [hrun]
      simp [hset]
    · rw [hrun]
      simp [hset]
    · intro _
      rw [hrun]

/-- A last write to index `j` means some event carried index `j`. -/
theorem lastWrite_mem (evs : List ChunkEvent) (j : Nat) :
    ∀ d : List Nat, lastWrite evs j = some d →
      ∃ e ∈ evs, j = e.idx.toNat := by
  induction evs with
  | nil => intro d h; simp [lastWrite] at h
  | cons e evs ih =>
    intro d h
    simp only [lastWrite] at h
    cases hlw : lastWrite evs j with
    | some d2 =>
      obtain ⟨e2, he2, hj⟩ := ih d2 hlw
      exact ⟨e2, List.mem_cons_of_mem e he2, hj⟩
    | none =>
      rw [hlw] at h
      by_cases hj : j = e.idx.toNat
      · exact ⟨e, List.mem_cons_self e evs, hj⟩
      · simp [hj] at h

/-- After a sequence of valid, successful chunk writes, each part file
holds the bytes of the last write to its index and the received set is the
set of written indices. -/
theorem applyEvents_good_state (n : Nat) (evs : List ChunkEvent) :
    ∀ s : UploadSession, s.total_chunks = n →
      (∀ e ∈ evs, e.ioError = false ∧ 0 ≤ e.idx ∧ e.idx < (n : Int)) →
      (applyEvents s evs).total_chunks = n ∧
      (∀ j, (applyEvents s evs).parts j =
        (match lastWrite evs j with
         | some d => some d
         | none => s.parts j)) ∧
      (applyEvents s evs).received_chunks =
        s.received_chunks ∪ (evs.map fun e => e.idx.toNat).toFinset := by
  induction evs with
  | nil =>
    intro s h1 _
    exact ⟨h1, fun j => rfl, by simp [applyEvents]⟩
  | cons e evs ih =>
    intro s h1 hgood
    obtain ⟨hio, hlo, hhi⟩ := hgood e (List.mem_cons_self e evs)
    have hgood' : ∀ e' ∈ evs, e'.ioError = false ∧ 0 ≤ e'.idx ∧
        e'.idx < (n : Int) :=
      fun e' he' => hgood e' (List.mem_cons_of_mem e he')
    have hstep : (receiveChunk s e).2 =
        { s with
          received_chunks := insert e.idx.toNat s.received_chunks
          parts := fun j =>
            if j = e.idx.toNat then some e.data else s.parts j } := by
      unfold receiveChunk
      rw [if_neg (by rw [h1]; omega), if_neg (by simp [hio])]
    obtain ⟨ih1, ih2, ih3⟩ :=
      ih (receiveChunk s e).2 (by rw [receiveChunk_total]; exact h1) hgood'
    refine ⟨ih1, ?_, ?_⟩
    · intro j
      show (applyEvents (receiveChunk s e).2 evs).parts j = _
      rw [ih2 j, hstep]
      simp only [lastWrite]
      cases hlw : lastWrite evs j with
      | some d => rfl
      | none =>
        by_cases hj : j = e.idx.toNat <;> simp [hj]
    · show (applyEvents (receiveChunk s e).2 evs).received_chunks = _
      rw [ih3, hstep]
      simp only [List.map_cons, List.toFinset_cons]
      ext x
      simp only [Finset.mem_union, Finset.mem_insert, List.mem_toFinset]
      tauto

/-- C4: for every session whose chunks `0..N-1` were all received — in any
arrival order, re-sends overwriting earlier copies — `complete()` assembles
exactly the concatenation of the last-written chunk contents in strictly
increasing index order, reproducing the original byte stream. -/
theorem c4_reassembly_order_exact (n : Nat) (evs : List ChunkEvent)
    (orig : Nat → List Nat)
    (hgood : ∀ e ∈ evs, e.ioError = false ∧ 0 ≤ e.idx ∧ e.idx < (n : Int))
    (hlast : ∀ i, i < n → lastWrite evs i = some (orig i)) :
    (completeUpload (applyEvents (freshSession n) evs)).1 =
      .assembled ((List.range n).map orig).flatten := by
  obtain ⟨h1, h2, h3⟩ := applyEvents_good_state n evs (freshSession n) rfl hgood
  set s := applyEvents (freshSession n) evs with hsdef
  have hparts : ∀ i, i < n → s.parts i = some (orig i) := by
    intro i hi
    rw [h2 i, hlast i hi]
  have hrecv : s.received_chunks = Finset.range n := by
    rw [h3]
    ext x
    simp only [freshSession, Finset.empty_union, List.mem_toFinset,
      List.mem_map, Finset.mem_range]
    constructor
    · rintro ⟨e, he, rfl⟩
      obtain ⟨_, hlo, hhi⟩ := hgood e he
      omega
    · intro hx
      obtain ⟨e, he, hj⟩ := lastWrite_mem evs x (orig x) (hlast x hx)
      exact ⟨e, he, hj.symm⟩
  have hassem : assembleParts s = some ((List.range n).map orig).flatten := by
    unfold assembleParts
    rw [show s.total_chunks = n from h1,
      readParts_map s.parts orig (List.range n)
        fun i hi => hparts i (List.mem_range.mp hi)]
    rfl
  unfold completeUpload
  rw [if_neg (by rw [hrecv, Finset.card_range, h1]; omega), hassem]

/-- C4 witness: two chunks arriving out of order reassemble in index
order. -/
theorem c4_reassembly_order_exact_witness :
    (completeUpload (applyEvents (freshSession 2)
        [⟨1, [9], false, none⟩, ⟨0, [7, 8], false, none⟩])).1 =
      .assembled
        (((List.range 2).map fun i => if i = 0 then [7, 8] else [9]).flatten) :=
  c4_reassembly_order_exact 2 [⟨1, [9], false, none⟩, ⟨0, [7, 8], false, none⟩]
    (fun i => if i = 0 then [7, 8] else [9]) (by decide) (by decide)

/-- C10: a chunk write that raises an I/O error makes `upload_chunk` answer
the failure and leaves the received-index set unchanged — the index is
recorded only after a successful write — so a failed write never moves the
session toward the all-chunks-received condition `complete()` checks. -/
theorem c10_failed_chunk_write_not_counted (s : UploadSession) (e : ChunkEvent)
    (hio : e.ioError = true) (hlo : 0 ≤ e.idx)
    (hhi : e.idx < (s.total_chunks : Int)) :
    (receiveChunk s e).1 = .saveFailed ∧
    (receiveChunk s e).2.received_chunks = s.received_chunks ∧
    ((completeUpload (receiveChunk s e).2).1 = .incomplete ↔
      (completeUpload s).1 = .incomplete) := by
  have hstep : receiveChunk s e =
      (.saveFailed,
        { s with parts := fun j =>
            if j = e.idx.toNat then
              match e.corrupt with
              | none => s.parts j
              | some c => some c
            else s.parts j }) := by
    unfold receiveChunk
    rw [if_neg (by omega), if_pos hio]
  refine ⟨by rw [hstep], by rw [hstep], ?_⟩
  rw [completeUpload_incomplete_iff, completeUpload_incomplete_iff, hstep]

/-- C10 witness: a failed write of chunk 0 on a one-chunk session. -/
theorem c10_failed_chunk_write_not_counted_witness :
    (receiveChunk ⟨1, ∅, fun _ => none⟩ ⟨0, [3], true, none⟩).1 =
        .saveFailed ∧
    (receiveChunk ⟨1, ∅, fun _ => none⟩
        ⟨0, [3], true, none⟩).2.received_chunks = (∅ : Finset Nat) ∧
    ((completeUpload (receiveChunk ⟨1, ∅, fun _ => none⟩
        ⟨0, [3], true, none⟩).2).1 = .incomplete ↔
      (completeUpload ⟨1, ∅, fun _ => none⟩).1 = .incomplete) :=
  c10_failed_chunk_write_not_counted ⟨1, ∅, fun _ => none⟩
    ⟨0, [3], true, none⟩ rfl (by decide) (by decide)

end YoloBackend.Chunks
